import Mathlib

/-!
Shallow embedding of src/pixelfunctions/pixelfunctions.c (nansat pixel
functions for GDAL derived bands).

Modelling conventions:

- A C double is modelled by a real number.  The two transforms whose claims
  are about IEEE special values (InvPixelFunc, BetaSigmaToIncidence) are
  additionally embedded with an explicit extended value type Fp carrying
  NaN and the two infinities.
- A packed source buffer (papoSources[i]) is modelled as a function
  Src : Nat -> R x R giving, for the linear sample index ii used by the C
  code (ii = iLine * nXSize + iCol), the pair (real subfield, imaginary
  subfield) that the SRCVAL macro reads at pReal respectively
  pImag = pReal + GDALGetDataTypeSize(eSrcType)/8/2.  For a non-complex
  source type only the first component is ever read.
- The destination buffer pData is modelled as a byte-offset indexed map
  Dest : Nat -> R x R.  A GDALCopyWords store of one word at byte offset
  nLineSpace * iLine + iCol * nPixelSpace is modelled as a Function.update
  at that offset; the stored cell is the logical value after the
  double -> eBufType conversion step of GDALCopyWords: storing a
  GDT_Float64 double v yields the cell (v, 0) (a complex eBufType gets an
  implicit zero imaginary part), storing a GDT_CFloat64 pair keeps both
  components when eBufType is complex and drops the imaginary part
  otherwise.
- The runtime element-type descriptors eSrcType and eBufType enter the
  control flow only through GDALDataTypeIsComplex; they are modelled by the
  two booleans srcComplex and bufComplex.
- The int parameters nXSize, nYSize, nPixelSpace, nLineSpace are modelled
  as naturals (the calling convention supplies nonnegative sizes and
  strides).
- The C error codes CE_None / CE_Failure are an explicit two-value type;
  each pixel function returns the error code together with the final
  destination buffer, an early return handing back the untouched buffer.
-/

/-- Error codes of the C functions: CE_None on success, CE_Failure on the
shape-error early returns. -/
inductive CPLErr where
  | CE_None : CPLErr
  | CE_Failure : CPLErr
deriving DecidableEq, Repr

/-- A packed source buffer: linear sample index to (real subfield,
imaginary subfield), the values SRCVAL reads at pReal and pImag. -/
abbrev Src : Type := ℕ → ℝ × ℝ

/-- The destination buffer: byte offset to stored cell (re, im). -/
abbrev Dest : Type := ℕ → ℝ × ℝ

/-- A default source buffer, used only to give List.getD a fallback that
the arity guards make unreachable. -/
def zeroSrc : Src := fun _ => (0, 0)

/-- Byte offset of the destination word for (iLine, iCol):
nLineSpace * iLine + iCol * nPixelSpace, as in every GDALCopyWords call of
the C file. -/
def destOff (nLineSpace nPixelSpace iLine iCol : ℕ) : ℕ :=
  nLineSpace * iLine + iCol * nPixelSpace

/-- The element-wise conversion GDALCopyWords applies to one source word:
a complex word keeps both components only when the destination type is
also complex, otherwise the real part is kept; a real word contributes a
zero imaginary part. -/
def convertWord (srcComplex bufComplex : Bool) (v : ℝ × ℝ) : ℝ × ℝ :=
  if srcComplex && bufComplex then v else (v.1, 0)

/-- The double tile loop of the C functions: for iLine in [0, nYSize), for
iCol in [0, nXSize), update the state.  The C loops run iLine outer and
iCol inner, which is exactly the left fold below. -/
def forEachPixel {σ : Type} (nXSize nYSize : ℕ) (f : ℕ → ℕ → σ → σ) (s : σ) : σ :=
  (List.range nYSize).foldl
    (fun acc iLine => (List.range nXSize).foldl (fun acc2 iCol => f iLine iCol acc2) acc) s

/-- The (iLine, iCol) pairs visited by the tile loop, in visiting order. -/
def tileIdx (nXSize nYSize : ℕ) : List (ℕ × ℕ) :=
  (List.range nYSize).flatMap fun iLine => (List.range nXSize).map fun iCol => (iLine, iCol)

lemma foldl_flatMap_eq {α β σ : Type} (g : σ → β → σ) (f : α → List β) :
    ∀ (l : List α) (init : σ),
      (l.flatMap f).foldl g init = l.foldl (fun s a => (f a).foldl g s) init := by
  intro l
  induction l with
  | nil => intro init; rfl
  | cons a t ih =>
      intro init
      simp only [List.flatMap_cons, List.foldl_append, List.foldl_cons, ih]

lemma forEachPixel_eq_foldl {σ : Type} (nXSize nYSize : ℕ) (f : ℕ → ℕ → σ → σ) (s : σ) :
    forEachPixel nXSize nYSize f s =
      (tileIdx nXSize nYSize).foldl (fun acc p => f p.1 p.2 acc) s := by
  unfold forEachPixel tileIdx
  rw [foldl_flatMap_eq]
  simp only [List.foldl_map]

lemma mem_tileIdx {nXSize nYSize iLine iCol : ℕ} :
    (iLine, iCol) ∈ tileIdx nXSize nYSize ↔ iLine < nYSize ∧ iCol < nXSize := by
  simp [tileIdx, List.mem_flatMap, List.mem_map, List.mem_range, Prod.ext_iff]

lemma foldl_update_const {α β : Type} (off : α → ℕ) (g : α → β) (o : ℕ) (v : β) :
    ∀ (idx : List α) (d : ℕ → β), d o = v → (∀ j ∈ idx, off j = o → g j = v) →
      (idx.foldl (fun acc j => Function.update acc (off j) (g j)) d) o = v := by
  intro idx
  induction idx with
  | nil => intro d hd _; exact hd
  | cons j t ih =>
      intro d hd hag
      simp only [List.foldl_cons]
      refine ih _ ?_ (fun j2 hj2 he => hag j2 (List.mem_cons_of_mem _ hj2) he)
      by_cases hoj : off j = o
      · subst hoj; rw [Function.update_same]
        exact hag j (List.mem_cons_self _ _) rfl
      · rw [Function.update_noteq (Ne.symm hoj)]
        exact hd

lemma foldl_update_agree {α β : Type} (off : α → ℕ) (g : α → β) :
    ∀ (idx : List α) (d : ℕ → β) (i : α), i ∈ idx →
      (∀ j ∈ idx, off j = off i → g j = g i) →
      (idx.foldl (fun acc j => Function.update acc (off j) (g j)) d) (off i) = g i := by
  intro idx
  induction idx with
  | nil => intro d i hi; exact absurd hi (List.not_mem_nil i)
  | cons j t ih =>
      intro d i hi hag
      simp only [List.foldl_cons]
      by_cases hit : i ∈ t
      · exact ih _ i hit (fun j2 hj2 he => hag j2 (List.mem_cons_of_mem _ hj2) he)
      · have hij : i = j := by
          rcases List.mem_cons.mp hi with h | h
          · exact h
          · exact absurd h hit
        subst hij
        refine foldl_update_const off g (off i) (g i) t _ (Function.update_same _ _ _) ?_
        intro j2 hj2 he
        exact hag j2 (List.mem_cons_of_mem _ hj2) he

/-- Distinct in-range (iLine, iCol) pairs land at distinct destination
byte offsets whenever the pixel stride is positive and one line of pixels
fits inside the line stride. -/
lemma destOff_inj {nXSize nPixelSpace nLineSpace : ℕ}
    (hps : 0 < nPixelSpace) (hls : nXSize * nPixelSpace ≤ nLineSpace)
    {l c l2 c2 : ℕ} (hc : c < nXSize) (hc2 : c2 < nXSize)
    (h : destOff nLineSpace nPixelSpace l2 c2 = destOff nLineSpace nPixelSpace l c) :
    l2 = l ∧ c2 = c := by
  have key : ∀ a b ca cb : ℕ, ca < nXSize → a < b →
      destOff nLineSpace nPixelSpace a ca < destOff nLineSpace nPixelSpace b cb := by
    intro a b ca cb hca hab
    unfold destOff
    calc nLineSpace * a + ca * nPixelSpace
        < nLineSpace * a + nXSize * nPixelSpace := by
          exact Nat.add_lt_add_left (mul_lt_mul_of_pos_right hca hps) _
      _ ≤ nLineSpace * a + nLineSpace := Nat.add_le_add_left hls _
      _ = nLineSpace * (a + 1) := by ring
      _ ≤ nLineSpace * b := Nat.mul_le_mul_left _ hab
      _ ≤ nLineSpace * b + cb * nPixelSpace := Nat.le_add_right _ _
  have hll : l2 = l := by
    rcases Nat.lt_trichotomy l2 l with hlt | heq | hgt
    · exact absurd h (Nat.ne_of_lt (key l2 l c2 c hc2 hlt))
    · exact heq
    · exact absurd h.symm (Nat.ne_of_lt (key l l2 c c2 hc hgt))
  subst hll
  refine ⟨rfl, ?_⟩
  have hcc : c2 * nPixelSpace = c * nPixelSpace := by
    have := h
    unfold destOff at this
    omega
  exact Nat.eq_of_mul_eq_mul_right hps hcc

/-- Main lookup lemma: after the tile loop performs one strided write per
(iLine, iCol), the destination cell at the offset of an in-range (l, c)
holds exactly the value written for (l, c). -/
lemma forEachPixel_update_get {β : Type} (nXSize nYSize nPixelSpace nLineSpace : ℕ)
    (g : ℕ → ℕ → β) (d : ℕ → β)
    (hps : 0 < nPixelSpace) (hls : nXSize * nPixelSpace ≤ nLineSpace)
    (l c : ℕ) (hl : l < nYSize) (hc : c < nXSize) :
    forEachPixel nXSize nYSize
      (fun iLine iCol acc =>
        Function.update acc (destOff nLineSpace nPixelSpace iLine iCol) (g iLine iCol)) d
      (destOff nLineSpace nPixelSpace l c) = g l c := by
  rw [forEachPixel_eq_foldl]
  refine foldl_update_agree (fun p : ℕ × ℕ => destOff nLineSpace nPixelSpace p.1 p.2)
    (fun p : ℕ × ℕ => g p.1 p.2) (tileIdx nXSize nYSize) d (l, c)
    (mem_tileIdx.mpr ⟨hl, hc⟩) ?_
  rintro ⟨l2, c2⟩ hj he
  have hm := mem_tileIdx.mp hj
  obtain ⟨e1, e2⟩ := destOff_inj hps hls hc hm.2 he
  subst e1
  subst e2
  rfl

/-!
The transform catalog, translated function by function from
src/pixelfunctions/pixelfunctions.c.  Each definition keeps the guard
order and the per-sample formula of its C original; the double tile loop
is forEachPixel and each GDALCopyWords single-word store is a
Function.update at destOff nLineSpace nPixelSpace iLine iCol.
-/

/-- Model of the libm atan2: the argument of the complex number x + y i,
in (-pi, pi], with atan2 0 0 = 0. -/
noncomputable def atan2 (y x : ℝ) : ℝ := Complex.arg ⟨x, y⟩

/-- Model of the C expression (double)abs(x) for a double x: the double
argument is implicitly converted to int (truncation toward zero, the C
cast semantics), the stdlib integer abs is applied, and the result is
converted back to double.  The file includes only math.h, so the abs in
ModulePixelFunc and Log10PixelFunc is the integer one from stdlib.h
(pulled in through gdal.h), not fabs. -/
noncomputable def cIntAbs (x : ℝ) : ℝ :=
  ((if 0 ≤ x then ⌊x⌋ else -⌊-x⌋).natAbs : ℝ)

/-- Model of the libm log10. -/
noncomputable def log10 (x : ℝ) : ℝ := Real.logb 10 x

/-- The PI macro of the nansat section of the C file: the literal
3.14159265, not the libm pi. -/
def PI : ℝ := 3.14159265

/-- RealPixelFunc: one source; each line is copied by one GDALCopyWords
call, which converts word (iLine, iCol) of the packed source (linear
index iLine * nXSize + iCol) to the destination type and stores it at the
strided offset. -/
noncomputable def RealPixelFunc (papoSources : List Src) (pData : Dest)
    (nXSize nYSize : ℕ) (srcComplex bufComplex : Bool)
    (nPixelSpace nLineSpace : ℕ) : CPLErr × Dest :=
  if papoSources.length ≠ 1 then (.CE_Failure, pData) else
  let s := papoSources.getD 0 zeroSrc
  (.CE_None, forEachPixel nXSize nYSize (fun iLine iCol d =>
    Function.update d (destOff nLineSpace nPixelSpace iLine iCol)
      (convertWord srcComplex bufComplex (s (iLine * nXSize + iCol)))) pData)

/-- ImagPixelFunc: one source.  Complex case: the per-line GDALCopyWords
reads elements of the complex source type starting at pImag, so word ii
is the pair (imaginary subfield of sample ii, real subfield of sample
ii + 1).  Non-complex case: the constant double 0 is copied to every
destination word. -/
noncomputable def ImagPixelFunc (papoSources : List Src) (pData : Dest)
    (nXSize nYSize : ℕ) (srcComplex bufComplex : Bool)
    (nPixelSpace nLineSpace : ℕ) : CPLErr × Dest :=
  if papoSources.length ≠ 1 then (.CE_Failure, pData) else
  let s := papoSources.getD 0 zeroSrc
  if srcComplex then
    (.CE_None, forEachPixel nXSize nYSize (fun iLine iCol d =>
      Function.update d (destOff nLineSpace nPixelSpace iLine iCol)
        (convertWord srcComplex bufComplex
          ((s (iLine * nXSize + iCol)).2, (s (iLine * nXSize + iCol + 1)).1))) pData)
  else
    (.CE_None, forEachPixel nXSize nYSize (fun iLine iCol d =>
      Function.update d (destOff nLineSpace nPixelSpace iLine iCol) ((0 : ℝ), (0 : ℝ))) pData)

/-- ModulePixelFunc: one source; complex case sqrt(re * re + im * im),
non-complex case (double)abs(x) with the integer abs (see cIntAbs); the
computed double is stored as GDT_Float64. -/
noncomputable def ModulePixelFunc (papoSources : List Src) (pData : Dest)
    (nXSize nYSize : ℕ) (srcComplex bufComplex : Bool)
    (nPixelSpace nLineSpace : ℕ) : CPLErr × Dest :=
  if papoSources.length ≠ 1 then (.CE_Failure, pData) else
  let s := papoSources.getD 0 zeroSrc
  if srcComplex then
    (.CE_None, forEachPixel nXSize nYSize (fun iLine iCol d =>
      Function.update d (destOff nLineSpace nPixelSpace iLine iCol)
        (Real.sqrt ((s (iLine * nXSize + iCol)).1 * (s (iLine * nXSize + iCol)).1
           + (s (iLine * nXSize + iCol)).2 * (s (iLine * nXSize + iCol)).2), 0)) pData)
  else
    (.CE_None, forEachPixel nXSize nYSize (fun iLine iCol d =>
      Function.update d (destOff nLineSpace nPixelSpace iLine iCol)
        (cIntAbs (s (iLine * nXSize + iCol)).1, 0)) pData)

/-- PhasePixelFunc: one source; complex case atan2(im, re); non-complex
case pi when the sample is negative and 0 otherwise, where pi is the
value the C code computes as atan2(0, -1). -/
noncomputable def PhasePixelFunc (papoSources : List Src) (pData : Dest)
    (nXSize nYSize : ℕ) (srcComplex bufComplex : Bool)
    (nPixelSpace nLineSpace : ℕ) : CPLErr × Dest :=
  if papoSources.length ≠ 1 then (.CE_Failure, pData) else
  let s := papoSources.getD 0 zeroSrc
  if srcComplex then
    (.CE_None, forEachPixel nXSize nYSize (fun iLine iCol d =>
      Function.update d (destOff nLineSpace nPixelSpace iLine iCol)
        (atan2 (s (iLine * nXSize + iCol)).2 (s (iLine * nXSize + iCol)).1, 0)) pData)
  else
    let pi := atan2 0 (-1)
    (.CE_None, forEachPixel nXSize nYSize (fun iLine iCol d =>
      Function.update d (destOff nLineSpace nPixelSpace iLine iCol)
        (if (s (iLine * nXSize + iCol)).1 < 0 then pi else 0, 0)) pData)

/-- ConjPixelFunc: one source; when both the source and the destination
type are complex, stores (re, -im) as GDT_CFloat64; otherwise the C code
delegates to RealPixelFunc. -/
noncomputable def ConjPixelFunc (papoSources : List Src) (pData : Dest)
    (nXSize nYSize : ℕ) (srcComplex bufComplex : Bool)
    (nPixelSpace nLineSpace : ℕ) : CPLErr × Dest :=
  if papoSources.length ≠ 1 then (.CE_Failure, pData) else
  if srcComplex && bufComplex then
    let s := papoSources.getD 0 zeroSrc
    (.CE_None, forEachPixel nXSize nYSize (fun iLine iCol d =>
      Function.update d (destOff nLineSpace nPixelSpace iLine iCol)
        (convertWord true bufComplex
          ((s (iLine * nXSize + iCol)).1, -(s (iLine * nXSize + iCol)).2))) pData)
  else
    RealPixelFunc papoSources pData nXSize nYSize srcComplex bufComplex
      nPixelSpace nLineSpace

/-- SumPixelFunc: at least two sources; complex case accumulates the two
components independently starting from (0, 0) and stores the pair as
GDT_CFloat64; non-complex case accumulates the running sum from 0 and
stores it as GDT_Float64. -/
noncomputable def SumPixelFunc (papoSources : List Src) (pData : Dest)
    (nXSize nYSize : ℕ) (srcComplex bufComplex : Bool)
    (nPixelSpace nLineSpace : ℕ) : CPLErr × Dest :=
  if papoSources.length < 2 then (.CE_Failure, pData) else
  if srcComplex then
    (.CE_None, forEachPixel nXSize nYSize (fun iLine iCol d =>
      Function.update d (destOff nLineSpace nPixelSpace iLine iCol)
        (convertWord true bufComplex
          (papoSources.foldl (fun acc s =>
            (acc.1 + (s (iLine * nXSize + iCol)).1,
             acc.2 + (s (iLine * nXSize + iCol)).2)) (0, 0)))) pData)
  else
    (.CE_None, forEachPixel nXSize nYSize (fun iLine iCol d =>
      Function.update d (destOff nLineSpace nPixelSpace iLine iCol)
        (papoSources.foldl (fun acc s => acc + (s (iLine * nXSize + iCol)).1) 0, 0)) pData)

/-- DiffPixelFunc: exactly two sources; complex case component-wise
difference stored as GDT_CFloat64, non-complex case source0 - source1
stored as GDT_Float64. -/
noncomputable def DiffPixelFunc (papoSources : List Src) (pData : Dest)
    (nXSize nYSize : ℕ) (srcComplex bufComplex : Bool)
    (nPixelSpace nLineSpace : ℕ) : CPLErr × Dest :=
  if papoSources.length ≠ 2 then (.CE_Failure, pData) else
  let s0 := papoSources.getD 0 zeroSrc
  let s1 := papoSources.getD 1 zeroSrc
  if srcComplex then
    (.CE_None, forEachPixel nXSize nYSize (fun iLine iCol d =>
      Function.update d (destOff nLineSpace nPixelSpace iLine iCol)
        (convertWord true bufComplex
          ((s0 (iLine * nXSize + iCol)).1 - (s1 (iLine * nXSize + iCol)).1,
           (s0 (iLine * nXSize + iCol)).2 - (s1 (iLine * nXSize + iCol)).2))) pData)
  else
    (.CE_None, forEachPixel nXSize nYSize (fun iLine iCol d =>
      Function.update d (destOff nLineSpace nPixelSpace iLine iCol)
        ((s0 (iLine * nXSize + iCol)).1 - (s1 (iLine * nXSize + iCol)).1, 0)) pData)

/-- MulPixelFunc: at least two sources; complex case folds the standard
complex multiplication recurrence from the seed (1, 0); non-complex case
folds the running product from 1. -/
noncomputable def MulPixelFunc (papoSources : List Src) (pData : Dest)
    (nXSize nYSize : ℕ) (srcComplex bufComplex : Bool)
    (nPixelSpace nLineSpace : ℕ) : CPLErr × Dest :=
  if papoSources.length < 2 then (.CE_Failure, pData) else
  if srcComplex then
    (.CE_None, forEachPixel nXSize nYSize (fun iLine iCol d =>
      Function.update d (destOff nLineSpace nPixelSpace iLine iCol)
        (convertWord true bufComplex
          (papoSources.foldl (fun acc s =>
            (acc.1 * (s (iLine * nXSize + iCol)).1 - acc.2 * (s (iLine * nXSize + iCol)).2,
             acc.1 * (s (iLine * nXSize + iCol)).2 + acc.2 * (s (iLine * nXSize + iCol)).1))
            (1, 0)))) pData)
  else
    (.CE_None, forEachPixel nXSize nYSize (fun iLine iCol d =>
      Function.update d (destOff nLineSpace nPixelSpace iLine iCol)
        (papoSources.foldl (fun acc s => acc * (s (iLine * nXSize + iCol)).1) 1, 0)) pData)

/-- CMulPixelFunc: exactly two sources; complex case stores
source0 * conj(source1) as GDT_CFloat64; non-complex case stores the pair
(product of the two real samples, 0), also typed GDT_CFloat64. -/
noncomputable def CMulPixelFunc (papoSources : List Src) (pData : Dest)
    (nXSize nYSize : ℕ) (srcComplex bufComplex : Bool)
    (nPixelSpace nLineSpace : ℕ) : CPLErr × Dest :=
  if papoSources.length ≠ 2 then (.CE_Failure, pData) else
  let s0 := papoSources.getD 0 zeroSrc
  let s1 := papoSources.getD 1 zeroSrc
  if srcComplex then
    (.CE_None, forEachPixel nXSize nYSize (fun iLine iCol d =>
      Function.update d (destOff nLineSpace nPixelSpace iLine iCol)
        (convertWord true bufComplex
          ((s0 (iLine * nXSize + iCol)).1 * (s1 (iLine * nXSize + iCol)).1
             + (s0 (iLine * nXSize + iCol)).2 * (s1 (iLine * nXSize + iCol)).2,
           (s1 (iLine * nXSize + iCol)).1 * (s0 (iLine * nXSize + iCol)).2
             - (s0 (iLine * nXSize + iCol)).1 * (s1 (iLine * nXSize + iCol)).2))) pData)
  else
    (.CE_None, forEachPixel nXSize nYSize (fun iLine iCol d =>
      Function.update d (destOff nLineSpace nPixelSpace iLine iCol)
        (convertWord true bufComplex
          ((s0 (iLine * nXSize + iCol)).1 * (s1 (iLine * nXSize + iCol)).1, 0))) pData)

/-- IntensityPixelFunc: one source; complex case re * re + im * im,
non-complex case x * x, stored as GDT_Float64. -/
noncomputable def IntensityPixelFunc (papoSources : List Src) (pData : Dest)
    (nXSize nYSize : ℕ) (srcComplex bufComplex : Bool)
    (nPixelSpace nLineSpace : ℕ) : CPLErr × Dest :=
  if papoSources.length ≠ 1 then (.CE_Failure, pData) else
  let s := papoSources.getD 0 zeroSrc
  if srcComplex then
    (.CE_None, forEachPixel nXSize nYSize (fun iLine iCol d =>
      Function.update d (destOff nLineSpace nPixelSpace iLine iCol)
        ((s (iLine * nXSize + iCol)).1 * (s (iLine * nXSize + iCol)).1
           + (s (iLine * nXSize + iCol)).2 * (s (iLine * nXSize + iCol)).2, 0)) pData)
  else
    (.CE_None, forEachPixel nXSize nYSize (fun iLine iCol d =>
      Function.update d (destOff nLineSpace nPixelSpace iLine iCol)
        ((s (iLine * nXSize + iCol)).1 * (s (iLine * nXSize + iCol)).1, 0)) pData)

/-- SqrtPixelFunc: one source, rejected when the source type is complex;
stores sqrt(x) as GDT_Float64.  Real.sqrt models the libm sqrt on its
nonnegative domain (no claim touches negative inputs of sqrt). -/
noncomputable def SqrtPixelFunc (papoSources : List Src) (pData : Dest)
    (nXSize nYSize : ℕ) (srcComplex bufComplex : Bool)
    (nPixelSpace nLineSpace : ℕ) : CPLErr × Dest :=
  if papoSources.length ≠ 1 then (.CE_Failure, pData) else
  if srcComplex then (.CE_Failure, pData) else
  let s := papoSources.getD 0 zeroSrc
  (.CE_None, forEachPixel nXSize nYSize (fun iLine iCol d =>
    Function.update d (destOff nLineSpace nPixelSpace iLine iCol)
      (Real.sqrt (s (iLine * nXSize + iCol)).1, 0)) pData)

/-- Log10PixelFunc: one source; complex case log10(re * re + im * im);
non-complex case log10((double)abs(x)) with the integer abs (see
cIntAbs).  Real.logb models the libm log10 on its positive domain (no
claim touches log10 at 0). -/
noncomputable def Log10PixelFunc (papoSources : List Src) (pData : Dest)
    (nXSize nYSize : ℕ) (srcComplex bufComplex : Bool)
    (nPixelSpace nLineSpace : ℕ) : CPLErr × Dest :=
  if papoSources.length ≠ 1 then (.CE_Failure, pData) else
  let s := papoSources.getD 0 zeroSrc
  if srcComplex then
    (.CE_None, forEachPixel nXSize nYSize (fun iLine iCol d =>
      Function.update d (destOff nLineSpace nPixelSpace iLine iCol)
        (log10 ((s (iLine * nXSize + iCol)).1 * (s (iLine * nXSize + iCol)).1
           + (s (iLine * nXSize + iCol)).2 * (s (iLine * nXSize + iCol)).2), 0)) pData)
  else
    (.CE_None, forEachPixel nXSize nYSize (fun iLine iCol d =>
      Function.update d (destOff nLineSpace nPixelSpace iLine iCol)
        (log10 (cIntAbs (s (iLine * nXSize + iCol)).1), 0)) pData)

/-- PowPixelFuncHelper: one source, rejected when the source type is
complex; stores pow(base, x / fact) as GDT_Float64. -/
noncomputable def PowPixelFuncHelper (papoSources : List Src) (pData : Dest)
    (nXSize nYSize : ℕ) (srcComplex bufComplex : Bool)
    (nPixelSpace nLineSpace : ℕ) (base fact : ℝ) : CPLErr × Dest :=
  if papoSources.length ≠ 1 then (.CE_Failure, pData) else
  if srcComplex then (.CE_Failure, pData) else
  let s := papoSources.getD 0 zeroSrc
  (.CE_None, forEachPixel nXSize nYSize (fun iLine iCol d =>
    Function.update d (destOff nLineSpace nPixelSpace iLine iCol)
      (base ^ ((s (iLine * nXSize + iCol)).1 / fact), 0)) pData)

/-- dB2AmpPixelFunc: PowPixelFuncHelper with base 10 and factor 20. -/
noncomputable def dB2AmpPixelFunc (papoSources : List Src) (pData : Dest)
    (nXSize nYSize : ℕ) (srcComplex bufComplex : Bool)
    (nPixelSpace nLineSpace : ℕ) : CPLErr × Dest :=
  PowPixelFuncHelper papoSources pData nXSize nYSize srcComplex bufComplex
    nPixelSpace nLineSpace 10 20

/-- dB2PowPixelFunc: PowPixelFuncHelper with base 10 and factor 10. -/
noncomputable def dB2PowPixelFunc (papoSources : List Src) (pData : Dest)
    (nXSize nYSize : ℕ) (srcComplex bufComplex : Bool)
    (nPixelSpace nLineSpace : ℕ) : CPLErr × Dest :=
  PowPixelFuncHelper papoSources pData nXSize nYSize srcComplex bufComplex
    nPixelSpace nLineSpace 10 10

/-!
Nansat section of the C file.  UVToMagnitude, UVToDirectionTo,
UVToDirectionFrom and Sigma0HHIncidenceToSigma0VV compute total real
formulas and stay in the real-valued world.  InvPixelFunc and
BetaSigmaToIncidence are the two transforms whose claims concern IEEE
special values, so their destinations carry the extended type Fp below.
-/

/-- UVToDirectionTo: exactly two sources; stores
atan2(-u, -v) * 180 / PI + 180 as GDT_Float64, with PI the literal of the
C macro. -/
noncomputable def UVToDirectionTo (papoSources : List Src) (pData : Dest)
    (nXSize nYSize : ℕ) (srcComplex bufComplex : Bool)
    (nPixelSpace nLineSpace : ℕ) : CPLErr × Dest :=
  if papoSources.length ≠ 2 then (.CE_Failure, pData) else
  let s0 := papoSources.getD 0 zeroSrc
  let s1 := papoSources.getD 1 zeroSrc
  (.CE_None, forEachPixel nXSize nYSize (fun iLine iCol d =>
    Function.update d (destOff nLineSpace nPixelSpace iLine iCol)
      (atan2 (-(s0 (iLine * nXSize + iCol)).1) (-(s1 (iLine * nXSize + iCol)).1)
         * 180 / PI + 180, 0)) pData)

/-- UVToDirectionFrom: exactly two sources; stores
atan2(u, v) * 180 / PI + 180 as GDT_Float64. -/
noncomputable def UVToDirectionFrom (papoSources : List Src) (pData : Dest)
    (nXSize nYSize : ℕ) (srcComplex bufComplex : Bool)
    (nPixelSpace nLineSpace : ℕ) : CPLErr × Dest :=
  if papoSources.length ≠ 2 then (.CE_Failure, pData) else
  let s0 := papoSources.getD 0 zeroSrc
  let s1 := papoSources.getD 1 zeroSrc
  (.CE_None, forEachPixel nXSize nYSize (fun iLine iCol d =>
    Function.update d (destOff nLineSpace nPixelSpace iLine iCol)
      (atan2 (s0 (iLine * nXSize + iCol)).1 (s1 (iLine * nXSize + iCol)).1
         * 180 / PI + 180, 0)) pData)

/-- UVToMagnitude: exactly two sources; stores sqrt(u * u + v * v) as
GDT_Float64. -/
noncomputable def UVToMagnitude (papoSources : List Src) (pData : Dest)
    (nXSize nYSize : ℕ) (srcComplex bufComplex : Bool)
    (nPixelSpace nLineSpace : ℕ) : CPLErr × Dest :=
  if papoSources.length ≠ 2 then (.CE_Failure, pData) else
  let s0 := papoSources.getD 0 zeroSrc
  let s1 := papoSources.getD 1 zeroSrc
  (.CE_None, forEachPixel nXSize nYSize (fun iLine iCol d =>
    Function.update d (destOff nLineSpace nPixelSpace iLine iCol)
      (Real.sqrt ((s0 (iLine * nXSize + iCol)).1 * (s0 (iLine * nXSize + iCol)).1
         + (s1 (iLine * nXSize + iCol)).1 * (s1 (iLine * nXSize + iCol)).1), 0)) pData)

/-- Sigma0HHIncidenceToSigma0VV: exactly two sources; the incidence angle
sample is scaled by PI / 180, the Thompson polarisation-ratio factor
pow((1 + 2 tan^2) / (1 + 0.6 tan^2), 2) is applied to the sigma0HH
sample, and the product is stored as GDT_Float64. -/
noncomputable def Sigma0HHIncidenceToSigma0VV (papoSources : List Src) (pData : Dest)
    (nXSize nYSize : ℕ) (srcComplex bufComplex : Bool)
    (nPixelSpace nLineSpace : ℕ) : CPLErr × Dest :=
  if papoSources.length ≠ 2 then (.CE_Failure, pData) else
  let s0 := papoSources.getD 0 zeroSrc
  let s1 := papoSources.getD 1 zeroSrc
  (.CE_None, forEachPixel nXSize nYSize (fun iLine iCol d =>
    Function.update d (destOff nLineSpace nPixelSpace iLine iCol)
      ((s0 (iLine * nXSize + iCol)).1 *
        ((1 + 2 * Real.tan ((s1 (iLine * nXSize + iCol)).1 * PI / 180) ^ 2)
          / (1 + 0.6 * Real.tan ((s1 (iLine * nXSize + iCol)).1 * PI / 180) ^ 2)) ^ 2,
       0)) pData)

/-- A double extended with the IEEE special values that the degenerate
branches of InvPixelFunc and BetaSigmaToIncidence can produce. -/
inductive Fp where
  | fin : ℝ → Fp
  | posInf : Fp
  | negInf : Fp
  | nan : Fp

/-- Destination buffer for the Fp-valued embeddings: byte offset to
stored cell (re, im). -/
abbrev FpDest : Type := ℕ → Fp × Fp

/-- IEEE division of finite doubles: finite quotient when the divisor is
nonzero, otherwise a signed infinity, or NaN for 0/0.  The single real
zero plays the role of IEEE +0. -/
noncomputable def cDiv (num den : ℝ) : Fp :=
  if den = 0 then
    (if num = 0 then .nan else if 0 < num then .posInf else .negInf)
  else .fin (num / den)

/-- IEEE asin of a finite double: NaN outside [-1, 1], the libm asin
inside. -/
noncomputable def cAsin (x : ℝ) : Fp :=
  if x < -1 ∨ 1 < x then .nan else .fin (Real.arcsin x)

/-- Multiplication of an Fp value by a positive finite constant: finite
values scale, NaN and the infinities propagate unchanged. -/
noncomputable def fpScale (k : ℝ) : Fp → Fp
  | .fin x => .fin (x * k)
  | f => f

/-- The GDALCopyWords conversion for an Fp-valued GDT_CFloat64 pair. -/
def convertFpPair (bufComplex : Bool) (v : Fp × Fp) : Fp × Fp :=
  if bufComplex then v else (v.1, .fin 0)

/-- InvPixelFunc, with the destination carrying Fp values: one source;
complex case stores (re / aux, -im / aux) with aux = re * re + im * im as
GDT_CFloat64; non-complex case stores 1 / x as GDT_Float64.  Division is
the unguarded C double division, modelled by cDiv. -/
noncomputable def InvPixelFunc (papoSources : List Src) (pData : FpDest)
    (nXSize nYSize : ℕ) (srcComplex bufComplex : Bool)
    (nPixelSpace nLineSpace : ℕ) : CPLErr × FpDest :=
  if papoSources.length ≠ 1 then (.CE_Failure, pData) else
  let s := papoSources.getD 0 zeroSrc
  if srcComplex then
    (.CE_None, forEachPixel nXSize nYSize (fun iLine iCol d =>
      Function.update d (destOff nLineSpace nPixelSpace iLine iCol)
        (convertFpPair bufComplex
          (cDiv (s (iLine * nXSize + iCol)).1
             ((s (iLine * nXSize + iCol)).1 * (s (iLine * nXSize + iCol)).1
               + (s (iLine * nXSize + iCol)).2 * (s (iLine * nXSize + iCol)).2),
           cDiv (-(s (iLine * nXSize + iCol)).2)
             ((s (iLine * nXSize + iCol)).1 * (s (iLine * nXSize + iCol)).1
               + (s (iLine * nXSize + iCol)).2 * (s (iLine * nXSize + iCol)).2)))) pData)
  else
    (.CE_None, forEachPixel nXSize nYSize (fun iLine iCol d =>
      Function.update d (destOff nLineSpace nPixelSpace iLine iCol)
        (cDiv 1 (s (iLine * nXSize + iCol)).1, Fp.fin 0)) pData)

/-- BetaSigmaToIncidence, with the destination carrying Fp values:
exactly two sources; when beta0 is nonzero the C code computes
asin(sigma0 / beta0) * 180 / PI (NaN from the asin domain failure
propagates through the scaling), and when beta0 is zero it stores the
double 0; the result is stored as GDT_Float64. -/
noncomputable def BetaSigmaToIncidence (papoSources : List Src) (pData : FpDest)
    (nXSize nYSize : ℕ) (srcComplex bufComplex : Bool)
    (nPixelSpace nLineSpace : ℕ) : CPLErr × FpDest :=
  if papoSources.length ≠ 2 then (.CE_Failure, pData) else
  let s0 := papoSources.getD 0 zeroSrc
  let s1 := papoSources.getD 1 zeroSrc
  (.CE_None, forEachPixel nXSize nYSize (fun iLine iCol d =>
    Function.update d (destOff nLineSpace nPixelSpace iLine iCol)
      (if (s0 (iLine * nXSize + iCol)).1 ≠ 0 then
         (fpScale (180 / PI)
           (cAsin ((s1 (iLine * nXSize + iCol)).1 / (s0 (iLine * nXSize + iCol)).1)),
          Fp.fin 0)
       else (Fp.fin 0, Fp.fin 0))) pData)

/-!
Claim theorems.
-/

/-- A destination buffer pre-filled with a sentinel pattern, used by the
witnesses. -/
noncomputable def sentinelDest : Dest := fun n => ((n : ℝ), 1)

/-- An Fp destination buffer pre-filled with a sentinel pattern. -/
noncomputable def sentinelFpDest : FpDest := fun n => (Fp.fin (n : ℝ), Fp.nan)

/-- C1: every transform of the catalog called with the wrong number of
sources returns CE_Failure with the destination buffer untouched, and
SqrtPixelFunc, dB2AmpPixelFunc and dB2PowPixelFunc called on a complex
source type likewise fail before any destination write; in particular sum
with one source, diff with three sources and cmul with one source fail
atomically. -/
theorem c1_shape_errors_atomic
    (a b c e : List Src) (s : Src) (d : Dest) (fd : FpDest)
    (nXSize nYSize nPixelSpace nLineSpace : ℕ) (sc bc : Bool)
    (ha : a.length ≠ 1) (hb : b.length < 2) (hc : c.length ≠ 2) (he : e.length ≠ 2) :
    RealPixelFunc a d nXSize nYSize sc bc nPixelSpace nLineSpace = (.CE_Failure, d) ∧
    ImagPixelFunc a d nXSize nYSize sc bc nPixelSpace nLineSpace = (.CE_Failure, d) ∧
    ModulePixelFunc a d nXSize nYSize sc bc nPixelSpace nLineSpace = (.CE_Failure, d) ∧
    PhasePixelFunc a d nXSize nYSize sc bc nPixelSpace nLineSpace = (.CE_Failure, d) ∧
    ConjPixelFunc a d nXSize nYSize sc bc nPixelSpace nLineSpace = (.CE_Failure, d) ∧
    IntensityPixelFunc a d nXSize nYSize sc bc nPixelSpace nLineSpace = (.CE_Failure, d) ∧
    SqrtPixelFunc a d nXSize nYSize sc bc nPixelSpace nLineSpace = (.CE_Failure, d) ∧
    Log10PixelFunc a d nXSize nYSize sc bc nPixelSpace nLineSpace = (.CE_Failure, d) ∧
    dB2AmpPixelFunc a d nXSize nYSize sc bc nPixelSpace nLineSpace = (.CE_Failure, d) ∧
    dB2PowPixelFunc a d nXSize nYSize sc bc nPixelSpace nLineSpace = (.CE_Failure, d) ∧
    InvPixelFunc a fd nXSize nYSize sc bc nPixelSpace nLineSpace = (.CE_Failure, fd) ∧
    SumPixelFunc b d nXSize nYSize sc bc nPixelSpace nLineSpace = (.CE_Failure, d) ∧
    MulPixelFunc b d nXSize nYSize sc bc nPixelSpace nLineSpace = (.CE_Failure, d) ∧
    DiffPixelFunc c d nXSize nYSize sc bc nPixelSpace nLineSpace = (.CE_Failure, d) ∧
    CMulPixelFunc e d nXSize nYSize sc bc nPixelSpace nLineSpace = (.CE_Failure, d) ∧
    BetaSigmaToIncidence e fd nXSize nYSize sc bc nPixelSpace nLineSpace = (.CE_Failure, fd) ∧
    UVToMagnitude e d nXSize nYSize sc bc nPixelSpace nLineSpace = (.CE_Failure, d) ∧
    UVToDirectionTo e d nXSize nYSize sc bc nPixelSpace nLineSpace = (.CE_Failure, d) ∧
    UVToDirectionFrom e d nXSize nYSize sc bc nPixelSpace nLineSpace = (.CE_Failure, d) ∧
    Sigma0HHIncidenceToSigma0VV e d nXSize nYSize sc bc nPixelSpace nLineSpace
      = (.CE_Failure, d) ∧
    SqrtPixelFunc [s] d nXSize nYSize true bc nPixelSpace nLineSpace = (.CE_Failure, d) ∧
    dB2AmpPixelFunc [s] d nXSize nYSize true bc nPixelSpace nLineSpace = (.CE_Failure, d) ∧
    dB2PowPixelFunc [s] d nXSize nYSize true bc nPixelSpace nLineSpace = (.CE_Failure, d) := by
  refine ⟨?_, ?_, ?_, ?_, ?_, ?_, ?_, ?_, ?_, ?_, ?_, ?_, ?_, ?_, ?_, ?_, ?_, ?_, ?_, ?_,
    ?_, ?_, ?_⟩
  · simp only [RealPixelFunc, if_pos ha]
  · simp only [ImagPixelFunc, if_pos ha]
  · simp only [ModulePixelFunc, if_pos ha]
  · simp only [PhasePixelFunc, if_pos ha]
  · simp only [ConjPixelFunc, if_pos ha]
  · simp only [IntensityPixelFunc, if_pos ha]
  · simp only [SqrtPixelFunc, if_pos ha]
  · simp only [Log10PixelFunc, if_pos ha]
  · simp only [dB2AmpPixelFunc, PowPixelFuncHelper, if_pos ha]
  · simp only [dB2PowPixelFunc, PowPixelFuncHelper, if_pos ha]
  · simp only [InvPixelFunc, if_pos ha]
  · simp only [SumPixelFunc, if_pos hb]
  · simp only [MulPixelFunc, if_pos hb]
  · simp only [DiffPixelFunc, if_pos hc]
  · simp only [CMulPixelFunc, if_pos he]
  · simp only [BetaSigmaToIncidence, if_pos he]
  · simp only [UVToMagnitude, if_pos he]
  · simp only [UVToDirectionTo, if_pos he]
  · simp only [UVToDirectionFrom, if_pos he]
  · simp only [Sigma0HHIncidenceToSigma0VV, if_pos he]
  · simp [SqrtPixelFunc]
  · simp [dB2AmpPixelFunc, PowPixelFuncHelper]
  · simp [dB2PowPixelFunc, PowPixelFuncHelper]

/-- C1 witness: on a 2 by 2 tile with a sentinel-filled destination, sum
with one source, diff with three sources, cmul with one source, and
sqrt, dB2amp, dB2pow on a complex source type, each return CE_Failure
with the sentinel destination unchanged. -/
theorem c1_shape_errors_atomic_witness :
    SumPixelFunc [zeroSrc] sentinelDest 2 2 false false 8 16
      = (.CE_Failure, sentinelDest) ∧
    DiffPixelFunc [zeroSrc, zeroSrc, zeroSrc] sentinelDest 2 2 false false 8 16
      = (.CE_Failure, sentinelDest) ∧
    CMulPixelFunc [zeroSrc] sentinelDest 2 2 false false 8 16
      = (.CE_Failure, sentinelDest) ∧
    SqrtPixelFunc [zeroSrc] sentinelDest 2 2 true false 8 16
      = (.CE_Failure, sentinelDest) ∧
    dB2AmpPixelFunc [zeroSrc] sentinelDest 2 2 true false 8 16
      = (.CE_Failure, sentinelDest) ∧
    dB2PowPixelFunc [zeroSrc] sentinelDest 2 2 true false 8 16
      = (.CE_Failure, sentinelDest) := by
  have h := c1_shape_errors_atomic [zeroSrc, zeroSrc] [zeroSrc]
    [zeroSrc, zeroSrc, zeroSrc] [zeroSrc] zeroSrc sentinelDest sentinelFpDest
    2 2 8 16 false false (by decide) (by decide) (by decide) (by decide)
  exact ⟨h.2.2.2.2.2.2.2.2.2.2.2.1, h.2.2.2.2.2.2.2.2.2.2.2.2.2.1,
    h.2.2.2.2.2.2.2.2.2.2.2.2.2.2.1, h.2.2.2.2.2.2.2.2.2.2.2.2.2.2.2.2.2.2.2.2.1,
    h.2.2.2.2.2.2.2.2.2.2.2.2.2.2.2.2.2.2.2.2.2.1,
    h.2.2.2.2.2.2.2.2.2.2.2.2.2.2.2.2.2.2.2.2.2.2⟩

/-- The value the C code computes as atan2(0, -1) is pi. -/
lemma atan2_zero_neg_one : atan2 0 (-1) = Real.pi := by
  unfold atan2
  rw [show ((⟨-1, 0⟩ : ℂ) = -1) from by apply Complex.ext <;> simp]
  exact Complex.arg_neg_one

/-- C2: the phase transform on a non-complex source writes exactly 0 for
a sample that is at least 0 (the boundary sample 0 included) and exactly
pi for a negative sample, and on a complex source writes atan2(im, re),
in every case at the strided destination offset of the tile position. -/
theorem c2_phase_values (src : Src) (d : Dest) (W H ps ls l c : ℕ) (bc : Bool)
    (hps : 0 < ps) (hls : W * ps ≤ ls) (hl : l < H) (hc : c < W) :
    (PhasePixelFunc [src] d W H false bc ps ls).1 = .CE_None ∧
    (0 ≤ (src (l * W + c)).1 →
      (PhasePixelFunc [src] d W H false bc ps ls).2 (destOff ls ps l c) = (0, 0)) ∧
    ((src (l * W + c)).1 < 0 →
      (PhasePixelFunc [src] d W H false bc ps ls).2 (destOff ls ps l c) = (Real.pi, 0)) ∧
    (PhasePixelFunc [src] d W H true bc ps ls).1 = .CE_None ∧
    (PhasePixelFunc [src] d W H true bc ps ls).2 (destOff ls ps l c)
      = (atan2 (src (l * W + c)).2 (src (l * W + c)).1, 0) := by
  have hv : (PhasePixelFunc [src] d W H false bc ps ls).2 (destOff ls ps l c)
      = (if (src (l * W + c)).1 < 0 then atan2 0 (-1) else 0, 0) := by
    simp only [PhasePixelFunc]
    rw [if_neg (by norm_num)]
    simp only [Bool.false_eq_true, if_false, List.getD]
    exact forEachPixel_update_get W H ps ls _ d hps hls l c hl hc
  have hw : (PhasePixelFunc [src] d W H true bc ps ls).2 (destOff ls ps l c)
      = (atan2 (src (l * W + c)).2 (src (l * W + c)).1, 0) := by
    simp only [PhasePixelFunc]
    rw [if_neg (by norm_num)]
    simp only [if_true, List.getD]
    exact forEachPixel_update_get W H ps ls _ d hps hls l c hl hc
  refine ⟨?_, ?_, ?_, ?_, hw⟩
  · simp [PhasePixelFunc]
  · intro h
    rw [hv, if_neg (not_lt.mpr h)]
  · intro h
    rw [hv, if_pos h, atan2_zero_neg_one]
  · simp [PhasePixelFunc]

/-- C2 witness: a 1 by 1 tile whose single sample is -1 gets exactly pi
written at destination offset 0. -/
theorem c2_phase_values_witness :
    (PhasePixelFunc [(fun _ => (-1, 1) : Src)] sentinelDest 1 1 false false 8 8).2
      (destOff 8 8 0 0) = (Real.pi, 0) :=
  (c2_phase_values (fun _ => (-1, 1)) sentinelDest 1 1 8 8 0 0 false
    (by norm_num) (by norm_num) (by norm_num) (by norm_num)).2.2.1 (by norm_num)

/-- C3: the claim says the mod transform on a non-complex source writes
the absolute value of every double sample; the code instead applies the
stdlib integer abs to the double, truncating the sample to int first.  On
the sample 5/2 the destination receives 2, which differs from the
absolute value 5/2. -/
theorem c3_mod_integer_abs_bug :
    (ModulePixelFunc [(fun _ => (5 / 2, 0) : Src)] sentinelDest 1 1 false false 8 8).2
      (destOff 8 8 0 0) = (2, 0) ∧ ((2 : ℝ) ≠ |(5 : ℝ) / 2|) := by
  constructor
  · have hv : (ModulePixelFunc [(fun _ => (5 / 2, 0) : Src)] sentinelDest
        1 1 false false 8 8).2 (destOff 8 8 0 0) = (cIntAbs (5 / 2), 0) := by
      simp only [ModulePixelFunc]
      rw [if_neg (by norm_num)]
      simp only [Bool.false_eq_true, if_false, List.getD]
      exact forEachPixel_update_get 1 1 8 8 _ sentinelDest (by norm_num) (by norm_num)
        0 0 (by norm_num) (by norm_num)
    rw [hv]
    have : cIntAbs (5 / 2) = 2 := by
      unfold cIntAbs
      rw [if_pos (by norm_num)]
      norm_num [Int.floor_eq_iff]
    rw [this]
  · rw [abs_of_pos (by norm_num)]
    norm_num

/-- C4: the claim says the log10 transform on a non-complex source writes
log10 of the absolute value of every double sample; the code applies the
stdlib integer abs before the log, so the sample 5/2 produces log10 2 at
the destination instead of log10 of 5/2, and the two differ. -/
theorem c4_log10_integer_abs_bug :
    (Log10PixelFunc [(fun _ => (5 / 2, 0) : Src)] sentinelDest 1 1 false false 8 8).2
      (destOff 8 8 0 0) = (log10 2, 0) ∧ log10 2 ≠ log10 (5 / 2) := by
  constructor
  · have hv : (Log10PixelFunc [(fun _ => (5 / 2, 0) : Src)] sentinelDest
        1 1 false false 8 8).2 (destOff 8 8 0 0) = (log10 (cIntAbs (5 / 2)), 0) := by
      simp only [Log10PixelFunc]
      rw [if_neg (by norm_num)]
      simp only [Bool.false_eq_true, if_false, List.getD]
      exact forEachPixel_update_get 1 1 8 8 _ sentinelDest (by norm_num) (by norm_num)
        0 0 (by norm_num) (by norm_num)
    rw [hv]
    have : cIntAbs (5 / 2) = 2 := by
      unfold cIntAbs
      rw [if_pos (by norm_num)]
      norm_num [Int.floor_eq_iff]
    rw [this]
  · have : log10 2 < log10 (5 / 2) :=
      Real.logb_lt_logb (by norm_num) (by norm_num) (by norm_num)
    exact ne_of_lt this

/-- atan2 at (0, 1) is 0. -/
lemma atan2_zero_one : atan2 0 1 = 0 := by
  unfold atan2
  rw [show ((⟨1, 0⟩ : ℂ) = 1) from by apply Complex.ext <;> simp]
  exact Complex.arg_one

/-- atan2 at (-1, 0) is minus pi over two. -/
lemma atan2_neg_one_zero : atan2 (-1) 0 = -(Real.pi / 2) := by
  unfold atan2
  rw [show ((⟨0, -1⟩ : ℂ) = -Complex.I) from by apply Complex.ext <;> simp]
  exact Complex.arg_neg_I

/-- Value written by UVToDirectionTo at an in-range tile position. -/
lemma uvDirectionTo_value (u v : Src) (d : Dest) (W H ps ls l c : ℕ) (bc : Bool)
    (hps : 0 < ps) (hls : W * ps ≤ ls) (hl : l < H) (hc : c < W) :
    (UVToDirectionTo [u, v] d W H false bc ps ls).2 (destOff ls ps l c)
      = (atan2 (-(u (l * W + c)).1) (-(v (l * W + c)).1) * 180 / PI + 180, 0) := by
  simp only [UVToDirectionTo]
  rw [if_neg (by norm_num)]
  simp only [List.getD_cons_zero, List.getD_cons_succ]
  exact forEachPixel_update_get W H ps ls _ d hps hls l c hl hc

/-- C5 counterexample: with u = 0 and v = -1 the code computes
atan2(0, 1) = 0, scales it to 0 degrees and adds 180, so the destination
receives 180 degrees, not 0 degrees as the claim states. -/
theorem c5_direction_to_counterexample :
    ((UVToDirectionTo [(fun _ => (0, 0) : Src), (fun _ => (-1, 0) : Src)] sentinelDest
       1 1 false false 8 8).2 (destOff 8 8 0 0)).1 = 180 ∧ (180 : ℝ) ≠ 0 := by
  constructor
  · rw [uvDirectionTo_value (fun _ => (0, 0)) (fun _ => (-1, 0)) sentinelDest 1 1 8 8 0 0
      false (by norm_num) (by norm_num) (by norm_num) (by norm_num)]
    norm_num [atan2_zero_one]
  · norm_num

/-- C5 amended: UVToDirectionTo writes
atan2(-u, -v) * 180 / 3.14159265 + 180 at every tile sample; for u = 0,
v = -1 the output is exactly 180 degrees (not 0), and for u = 1, v = 0
the output is within 1/1000 of 90 degrees (not 270). -/
theorem c5_direction_to_amended :
    (∀ (u v : Src) (d : Dest) (W H ps ls l c : ℕ) (bc : Bool), 0 < ps → W * ps ≤ ls →
      l < H → c < W →
      (UVToDirectionTo [u, v] d W H false bc ps ls).1 = .CE_None ∧
      (UVToDirectionTo [u, v] d W H false bc ps ls).2 (destOff ls ps l c)
        = (atan2 (-(u (l * W + c)).1) (-(v (l * W + c)).1) * 180 / PI + 180, 0)) ∧
    (UVToDirectionTo [(fun _ => (0, 0) : Src), (fun _ => (-1, 0) : Src)] sentinelDest
       1 1 false false 8 8).2 (destOff 8 8 0 0) = (180, 0) ∧
    |((UVToDirectionTo [(fun _ => (1, 0) : Src), (fun _ => (0, 0) : Src)] sentinelDest
       1 1 false false 8 8).2 (destOff 8 8 0 0)).1 - 90| < 1 / 1000 := by
  refine ⟨?_, ?_, ?_⟩
  · intro u v d W H ps ls l c bc hps hls hl hc
    refine ⟨?_, uvDirectionTo_value u v d W H ps ls l c bc hps hls hl hc⟩
    simp [UVToDirectionTo]
  · rw [uvDirectionTo_value (fun _ => (0, 0)) (fun _ => (-1, 0)) sentinelDest 1 1 8 8 0 0
      false (by norm_num) (by norm_num) (by norm_num) (by norm_num)]
    norm_num [atan2_zero_one]
  · rw [uvDirectionTo_value (fun _ => (1, 0)) (fun _ => (0, 0)) sentinelDest 1 1 8 8 0 0
      false (by norm_num) (by norm_num) (by norm_num) (by norm_num)]
    simp only [neg_zero, atan2_neg_one_zero]
    unfold PI
    have hc3 : (0 : ℝ) < 3.14159265 := by norm_num
    have key : -(Real.pi / 2) * 180 / 3.14159265 + 180 - 90
        = (90 * 3.14159265 - 90 * Real.pi) / 3.14159265 := by
      field_simp
      ring
    rw [abs_lt, key]
    constructor
    · rw [lt_div_iff hc3]
      nlinarith [Real.pi_lt_d6]
    · rw [div_lt_iff hc3]
      nlinarith [Real.pi_gt_d6]

/-- C5 witness: the general formula of the amended claim instantiated on a
2 by 2 tile at line 1, column 0, with u = 0 and v = -1, evaluates to 180
degrees. -/
theorem c5_direction_to_amended_witness :
    (UVToDirectionTo [(fun _ => (0, 0) : Src), (fun _ => (-1, 0) : Src)] sentinelDest
       2 2 false false 8 16).2 (destOff 16 8 1 0) = (180, 0) := by
  have h := (c5_direction_to_amended.1 (fun _ => (0, 0)) (fun _ => (-1, 0)) sentinelDest
    2 2 8 16 1 0 false (by norm_num) (by norm_num) (by norm_num) (by norm_num)).2
  rw [h]
  norm_num [atan2_zero_one]

/-- Value written by BetaSigmaToIncidence at an in-range tile position. -/
lemma betaSigmaToIncidence_value (b s : Src) (fd : FpDest) (W H ps ls l c : ℕ) (bc : Bool)
    (hps : 0 < ps) (hls : W * ps ≤ ls) (hl : l < H) (hc : c < W) :
    (BetaSigmaToIncidence [b, s] fd W H false bc ps ls).2 (destOff ls ps l c)
      = (if (b (l * W + c)).1 ≠ 0 then
           (fpScale (180 / PI) (cAsin ((s (l * W + c)).1 / (b (l * W + c)).1)), Fp.fin 0)
         else (Fp.fin 0, Fp.fin 0)) := by
  simp only [BetaSigmaToIncidence]
  rw [if_neg (by norm_num)]
  simp only [List.getD_cons_zero, List.getD_cons_succ]
  exact forEachPixel_update_get W H ps ls _ fd hps hls l c hl hc

/-- C6: BetaSigmaToIncidence always returns CE_None with two sources; at
every tile sample it writes exactly 0 when beta0 is 0, writes
asin(sigma0 / beta0) scaled by 180 / 3.14159265 when beta0 is nonzero and
the ratio lies in [-1, 1], and writes NaN (the asin domain failure,
propagated through the scaling) when the ratio lies outside [-1, 1]. -/
theorem c6_beta_sigma_incidence (b s : Src) (fd : FpDest) (W H ps ls l c : ℕ) (bc : Bool)
    (hps : 0 < ps) (hls : W * ps ≤ ls) (hl : l < H) (hc : c < W) :
    (BetaSigmaToIncidence [b, s] fd W H false bc ps ls).1 = .CE_None ∧
    ((b (l * W + c)).1 = 0 →
      (BetaSigmaToIncidence [b, s] fd W H false bc ps ls).2 (destOff ls ps l c)
        = (Fp.fin 0, Fp.fin 0)) ∧
    ((b (l * W + c)).1 ≠ 0 → -1 ≤ (s (l * W + c)).1 / (b (l * W + c)).1 →
      (s (l * W + c)).1 / (b (l * W + c)).1 ≤ 1 →
      (BetaSigmaToIncidence [b, s] fd W H false bc ps ls).2 (destOff ls ps l c)
        = (Fp.fin (Real.arcsin ((s (l * W + c)).1 / (b (l * W + c)).1) * (180 / PI)),
           Fp.fin 0)) ∧
    ((b (l * W + c)).1 ≠ 0 →
      ((s (l * W + c)).1 / (b (l * W + c)).1 < -1 ∨ 1 < (s (l * W + c)).1 / (b (l * W + c)).1) →
      (BetaSigmaToIncidence [b, s] fd W H false bc ps ls).2 (destOff ls ps l c)
        = (Fp.nan, Fp.fin 0)) := by
  have hv := betaSigmaToIncidence_value b s fd W H ps ls l c bc hps hls hl hc
  refine ⟨?_, ?_, ?_, ?_⟩
  · simp [BetaSigmaToIncidence]
  · intro h
    rw [hv, if_neg (fun hn => hn h)]
  · intro hb h1 h2
    rw [hv, if_pos hb]
    unfold cAsin
    rw [if_neg (not_or.mpr ⟨not_lt.mpr h1, not_lt.mpr h2⟩)]
    simp [fpScale]
  · intro hb hdom
    rw [hv, if_pos hb]
    unfold cAsin
    rw [if_pos hdom]
    simp [fpScale]

/-- C6 witness: beta0 = 2, sigma0 = 1 on a 1 by 1 tile produce
asin(1/2) * 180 / 3.14159265 at destination offset 0, with CE_None. -/
theorem c6_beta_sigma_incidence_witness :
    (BetaSigmaToIncidence [(fun _ => (2, 0) : Src), (fun _ => (1, 0) : Src)] sentinelFpDest
        1 1 false false 8 8).1 = .CE_None ∧
    (BetaSigmaToIncidence [(fun _ => (2, 0) : Src), (fun _ => (1, 0) : Src)] sentinelFpDest
        1 1 false false 8 8).2 (destOff 8 8 0 0)
      = (Fp.fin (Real.arcsin (1 / 2) * (180 / PI)), Fp.fin 0) := by
  have h := c6_beta_sigma_incidence (fun _ => (2, 0)) (fun _ => (1, 0)) sentinelFpDest
    1 1 8 8 0 0 false (by norm_num) (by norm_num) (by norm_num) (by norm_num)
  refine ⟨h.1, ?_⟩
  have hval := h.2.2.1 (by norm_num) (by norm_num) (by norm_num)
  simpa using hval

/-- C7: InvPixelFunc on a non-complex source never fails with one source,
and a sample equal to 0.0 produces positive infinity at the destination
(the model has a single zero, playing IEEE +0) while the call returns
CE_None; the complex branch likewise returns CE_None for every input. -/
theorem c7_inv_zero_infinity (src : Src) (fd : FpDest) (W H ps ls l c : ℕ) (bc : Bool)
    (hps : 0 < ps) (hls : W * ps ≤ ls) (hl : l < H) (hc : c < W)
    (h0 : (src (l * W + c)).1 = 0) :
    (InvPixelFunc [src] fd W H false bc ps ls).1 = .CE_None ∧
    (InvPixelFunc [src] fd W H false bc ps ls).2 (destOff ls ps l c)
      = (Fp.posInf, Fp.fin 0) ∧
    (InvPixelFunc [src] fd W H true bc ps ls).1 = .CE_None := by
  refine ⟨?_, ?_, ?_⟩
  · simp [InvPixelFunc]
  · have hv : (InvPixelFunc [src] fd W H false bc ps ls).2 (destOff ls ps l c)
        = (cDiv 1 (src (l * W + c)).1, Fp.fin 0) := by
      simp only [InvPixelFunc]
      rw [if_neg (by norm_num)]
      simp only [Bool.false_eq_true, if_false, List.getD_cons_zero]
      exact forEachPixel_update_get W H ps ls _ fd hps hls l c hl hc
    rw [hv, h0]
    unfold cDiv
    rw [if_pos rfl, if_neg one_ne_zero, if_pos one_pos]
  · simp [InvPixelFunc]

/-- C7 witness: a 1 by 1 tile whose single sample is 0 produces positive
infinity at destination offset 0 and the call returns CE_None. -/
theorem c7_inv_zero_infinity_witness :
    (InvPixelFunc [(fun _ => (0, 5) : Src)] sentinelFpDest 1 1 false false 8 8).1
      = .CE_None ∧
    (InvPixelFunc [(fun _ => (0, 5) : Src)] sentinelFpDest 1 1 false false 8 8).2
      (destOff 8 8 0 0) = (Fp.posInf, Fp.fin 0) := by
  have h := c7_inv_zero_infinity (fun _ => (0, 5)) sentinelFpDest 1 1 8 8 0 0 false
    (by norm_num) (by norm_num) (by norm_num) (by norm_num) (by norm_num)
  exact ⟨h.1, h.2.1⟩

/-- The running-sum loop of SumPixelFunc equals the sum of the mapped
sample values. -/
lemma foldl_add_eq_sum (f : Src → ℝ) :
    ∀ (l : List Src) (a : ℝ),
      l.foldl (fun acc s => acc + f s) a = a + (l.map f).sum := by
  intro l
  induction l with
  | nil => intro a; simp
  | cons s t ih =>
      intro a
      simp only [List.foldl_cons, List.map_cons, List.sum_cons, ih, add_assoc]

/-- C8: with at least two non-complex sources, the sum transform returns
CE_None and writes at every tile position (row, col) the sum over all
sources of the sample at linear index row * W + col, at the strided
destination offset of that position. -/
theorem c8_sum_values (srcs : List Src) (d : Dest) (W H ps ls l c : ℕ) (bc : Bool)
    (h2 : 2 ≤ srcs.length) (hps : 0 < ps) (hls : W * ps ≤ ls) (hl : l < H) (hc : c < W) :
    (SumPixelFunc srcs d W H false bc ps ls).1 = .CE_None ∧
    (SumPixelFunc srcs d W H false bc ps ls).2 (destOff ls ps l c)
      = ((srcs.map (fun s => (s (l * W + c)).1)).sum, 0) := by
  constructor
  · simp only [SumPixelFunc]
    rw [if_neg (not_lt.mpr h2)]
    simp
  · have hv : (SumPixelFunc srcs d W H false bc ps ls).2 (destOff ls ps l c)
        = (srcs.foldl (fun acc s => acc + (s (l * W + c)).1) 0, 0) := by
      simp only [SumPixelFunc]
      rw [if_neg (not_lt.mpr h2)]
      simp only [Bool.false_eq_true, if_false]
      exact forEachPixel_update_get W H ps ls _ d hps hls l c hl hc
    rw [hv, foldl_add_eq_sum, zero_add]

/-- C8 witness: the 2 by 2 scenario of the claim, with the two sources
holding 1, 2, 3, 4 and 5, 6, 7, 8 in row-major order: the four strided
destination cells receive 6, 8, 10 and 12. -/
theorem c8_sum_values_witness :
    (SumPixelFunc [(fun ii => ((ii : ℝ) + 1, 0) : Src), (fun ii => ((ii : ℝ) + 5, 0) : Src)]
        sentinelDest 2 2 false false 8 16).2 (destOff 16 8 0 0) = (6, 0) ∧
    (SumPixelFunc [(fun ii => ((ii : ℝ) + 1, 0) : Src), (fun ii => ((ii : ℝ) + 5, 0) : Src)]
        sentinelDest 2 2 false false 8 16).2 (destOff 16 8 0 1) = (8, 0) ∧
    (SumPixelFunc [(fun ii => ((ii : ℝ) + 1, 0) : Src), (fun ii => ((ii : ℝ) + 5, 0) : Src)]
        sentinelDest 2 2 false false 8 16).2 (destOff 16 8 1 0) = (10, 0) ∧
    (SumPixelFunc [(fun ii => ((ii : ℝ) + 1, 0) : Src), (fun ii => ((ii : ℝ) + 5, 0) : Src)]
        sentinelDest 2 2 false false 8 16).2 (destOff 16 8 1 1) = (12, 0) := by
  refine ⟨?_, ?_, ?_, ?_⟩
  · have h := (c8_sum_values
      [(fun ii => ((ii : ℝ) + 1, 0) : Src), (fun ii => ((ii : ℝ) + 5, 0) : Src)]
      sentinelDest 2 2 8 16 0 0 false (by norm_num) (by norm_num) (by norm_num)
      (by norm_num) (by norm_num)).2
    rw [h]; norm_num
  · have h := (c8_sum_values
      [(fun ii => ((ii : ℝ) + 1, 0) : Src), (fun ii => ((ii : ℝ) + 5, 0) : Src)]
      sentinelDest 2 2 8 16 0 1 false (by norm_num) (by norm_num) (by norm_num)
      (by norm_num) (by norm_num)).2
    rw [h]; norm_num
  · have h := (c8_sum_values
      [(fun ii => ((ii : ℝ) + 1, 0) : Src), (fun ii => ((ii : ℝ) + 5, 0) : Src)]
      sentinelDest 2 2 8 16 1 0 false (by norm_num) (by norm_num) (by norm_num)
      (by norm_num) (by norm_num)).2
    rw [h]; norm_num
  · have h := (c8_sum_values
      [(fun ii => ((ii : ℝ) + 1, 0) : Src), (fun ii => ((ii : ℝ) + 5, 0) : Src)]
      sentinelDest 2 2 8 16 1 1 false (by norm_num) (by norm_num) (by norm_num)
      (by norm_num) (by norm_num)).2
    rw [h]; norm_num

/-- Value written by ConjPixelFunc when both source and destination types
are complex. -/
lemma conjPixelFunc_complex_value (t : Src) (dd : Dest) (W H ps ls l c : ℕ)
    (hps : 0 < ps) (hls : W * ps ≤ ls) (hl : l < H) (hc : c < W) :
    (ConjPixelFunc [t] dd W H true true ps ls).2 (destOff ls ps l c)
      = ((t (l * W + c)).1, -(t (l * W + c)).2) := by
  simp only [ConjPixelFunc]
  rw [if_neg (by norm_num)]
  simp only [Bool.and_self, if_true, List.getD_cons_zero, convertWord]
  exact forEachPixel_update_get W H ps ls _ dd hps hls l c hl hc

/-- Value written by RealPixelFunc at an in-range tile position. -/
lemma realPixelFunc_value (t : Src) (dd : Dest) (W H ps ls l c : ℕ) (sc bc : Bool)
    (hps : 0 < ps) (hls : W * ps ≤ ls) (hl : l < H) (hc : c < W) :
    (RealPixelFunc [t] dd W H sc bc ps ls).2 (destOff ls ps l c)
      = convertWord sc bc (t (l * W + c)) := by
  simp only [RealPixelFunc]
  rw [if_neg (by norm_num)]
  simp only [List.getD_cons_zero]
  exact forEachPixel_update_get W H ps ls _ dd hps hls l c hl hc

/-- C9: with complex source and destination types, conj writes
(re, -im) for every sample, and running conj again over a packed re-read
of the first destination restores the original complex value at every
sample position. -/
theorem c9_conj_involutive (s : Src) (d d2 : Dest) (W H ps ls l c : ℕ)
    (hps : 0 < ps) (hls : W * ps ≤ ls) (hl : l < H) (hc : c < W) :
    (ConjPixelFunc [s] d W H true true ps ls).2 (destOff ls ps l c)
      = ((s (l * W + c)).1, -(s (l * W + c)).2) ∧
    (ConjPixelFunc
        [fun ii => (ConjPixelFunc [s] d W H true true ps ls).2
            (destOff ls ps (ii / W) (ii % W))]
        d2 W H true true ps ls).2 (destOff ls ps l c) = s (l * W + c) := by
  have hW : 0 < W := lt_of_le_of_lt (Nat.zero_le c) hc
  have hdiv : (l * W + c) / W = l := by
    rw [mul_comm l W, Nat.mul_add_div hW, Nat.div_eq_of_lt hc]
    omega
  have hmod : (l * W + c) % W = c := by
    rw [mul_comm l W, Nat.mul_add_mod]
    exact Nat.mod_eq_of_lt hc
  refine ⟨conjPixelFunc_complex_value s d W H ps ls l c hps hls hl hc, ?_⟩
  rw [conjPixelFunc_complex_value _ d2 W H ps ls l c hps hls hl hc]
  simp only [hdiv, hmod]
  rw [conjPixelFunc_complex_value s d W H ps ls l c hps hls hl hc]
  simp

/-- C9 witness: a 1 by 1 tile with complex sample (3, 4): one conj yields
(3, -4) and re-running conj on the re-read destination restores (3, 4). -/
theorem c9_conj_involutive_witness :
    (ConjPixelFunc [(fun _ => (3, 4) : Src)] sentinelDest 1 1 true true 8 8).2
      (destOff 8 8 0 0) = (3, -4) ∧
    (ConjPixelFunc
        [fun ii => (ConjPixelFunc [(fun _ => (3, 4) : Src)] sentinelDest 1 1 true true 8 8).2
            (destOff 8 8 (ii / 1) (ii % 1))]
        sentinelDest 1 1 true true 8 8).2 (destOff 8 8 0 0) = (3, 4) := by
  have h := c9_conj_involutive (fun _ => (3, 4)) sentinelDest sentinelDest 1 1 8 8 0 0
    (by norm_num) (by norm_num) (by norm_num) (by norm_num)
  exact ⟨h.1, h.2⟩

/-- C10: with a complex source type but a non-complex destination type,
conj is exactly RealPixelFunc: a type-converting copy whose stored cell
is the real subfield of each sample (with zero in the unused imaginary
slot), so the negated imaginary part is never produced. -/
theorem c10_conj_noncomplex_dest (s : Src) (d : Dest) (W H ps ls l c : ℕ)
    (hps : 0 < ps) (hls : W * ps ≤ ls) (hl : l < H) (hc : c < W) :
    ConjPixelFunc [s] d W H true false ps ls = RealPixelFunc [s] d W H true false ps ls ∧
    (ConjPixelFunc [s] d W H true false ps ls).2 (destOff ls ps l c)
      = ((s (l * W + c)).1, 0) := by
  have he : ConjPixelFunc [s] d W H true false ps ls
      = RealPixelFunc [s] d W H true false ps ls := by
    simp only [ConjPixelFunc]
    rw [if_neg (by norm_num)]
    simp
  refine ⟨he, ?_⟩
  rw [he, realPixelFunc_value s d W H ps ls l c true false hps hls hl hc]
  simp [convertWord]

/-- C10 witness: a 1 by 1 tile with complex sample (7, 9) and a
non-complex destination type stores (7, 0): the real subfield only. -/
theorem c10_conj_noncomplex_dest_witness :
    (ConjPixelFunc [(fun _ => (7, 9) : Src)] sentinelDest 1 1 true false 8 8).2
      (destOff 8 8 0 0) = (7, 0) :=
  (c10_conj_noncomplex_dest (fun _ => (7, 9)) sentinelDest 1 1 8 8 0 0
    (by norm_num) (by norm_num) (by norm_num) (by norm_num)).2
